import Mathlib

/-!
Verification of the Personal-Wellness-Tracker core against its specification.

The program is embedded shallowly:
* the CSV store is a `List Row` of string-valued rows (csv.DictReader returns
  all values as strings); file I/O is dropped and `upsert_entry` becomes a pure
  function from the in-memory row list to the new row list plus its result;
* Python strings are Lean `String`s; Python's string `<` compares code points,
  embedded as a lexicographic comparison over `Char.toNat`;
* Python `int` is `Int`; Python `float` is `PyFloat` (an exact rational plus
  the special values `inf`, `-inf`, `nan`; decimal-to-binary rounding of CPython
  doubles is idealized as exact rational value, which is irrelevant to the
  claims checked here, while the special values' comparison behaviour is kept);
* Python dict-based error maps become association lists built in the source's
  insertion order.
-/

/-- Lexicographic non-strict comparison of char lists by Unicode code point,
the embedding of Python's string `<=` used by `sorted` with a string key. -/
def charsLe : List Char → List Char → Bool
  | [], _ => true
  | _ :: _, [] => false
  | a :: as, b :: bs =>
    if a.toNat < b.toNat then true
    else if b.toNat < a.toNat then false
    else charsLe as bs

/-- Lexicographic strict comparison of char lists by Unicode code point. -/
def charsLt : List Char → List Char → Bool
  | [], [] => false
  | [], _ :: _ => true
  | _ :: _, [] => false
  | a :: as, b :: bs =>
    if a.toNat < b.toNat then true
    else if b.toNat < a.toNat then false
    else charsLt as bs

/-- Python string `<=` (code-point lexicographic). -/
def strLe (a b : String) : Bool := charsLe a.data b.data

/-- Python string `<` (code-point lexicographic). -/
def strLt (a b : String) : Bool := charsLt a.data b.data

/-- One CSV row, with the fixed `_FIELDNAMES` schema of `data_io.py`.
`csv.DictReader` yields every field as a string; `write_entries` fills a
missing field with `""`, so a stored row always has all seven fields. -/
structure Row where
  date : String
  sleep_minutes : String
  exercise_minutes : String
  mood_scale : String
  mood_tags : String
  activities : String
  notes : String
deriving DecidableEq, Repr

/-- Stable insertion of a row into a date-sorted list: the new row goes after
every strictly smaller date and before the first not-smaller one, matching the
stability of Python's `sorted` (an element arriving later stays after equal
keys already present). -/
def insertRow (r : Row) : List Row → List Row
  | [] => [r]
  | x :: xs => if strLt x.date r.date then x :: insertRow r xs else r :: x :: xs

/-- The embedding of `sorted(rows, key=lambda r: r.get("date", ""))`:
a stable sort by the raw `date` string. -/
def sortByDate : List Row → List Row
  | [] => []
  | x :: xs => insertRow x (sortByDate xs)

/-- The `for row in rows` loop of `upsert_entry`: every row whose `date`
equals the target is replaced by the entry (and the action becomes
`"updated"`); other rows are kept as they are. -/
def upsertPass (targetDate : String) (entry : Row) : List Row → List Row × String
  | [] => ([], "inserted")
  | row :: rest =>
    let p := upsertPass targetDate entry rest
    if row.date = targetDate then (entry :: p.1, "updated")
    else (row :: p.1, p.2)

/-- Model of `upsert_entry` of `data_io.py`, with the file replaced by the in-memory
row list: replace rows matching `entry.date` (or append the entry when none
matches), then sort by the raw date string; returns the new store contents
and the `"updated"` / `"inserted"` action string. -/
def upsertEntry (rows : List Row) (entry : Row) : List Row × String :=
  let targetDate := entry.date
  let p := upsertPass targetDate entry rows
  let updatedRows := if p.2 = "inserted" then p.1 ++ [entry] else p.1
  (sortByDate updatedRows, p.2)

/-- A whole sequence of upserts applied to an initially empty store. -/
def applyUpserts (entries : List Row) : List Row :=
  entries.foldl (fun store e => (upsertEntry store e).1) []

/-! ## Python primitive values and text helpers -/

/-- A Python `float` value as produced by `float(text)`: a finite value
(idealized as its exact rational value) or one of the special values
`inf`, `-inf`, `nan`. -/
inductive PyFloat where
  | finite (q : ℚ)
  | inf
  | ninf
  | nan
deriving DecidableEq, Repr

/-- Python `<` on floats: the usual order on finite values and infinities,
and `False` for every comparison involving `nan`. -/
def PyFloat.lt : PyFloat → PyFloat → Bool
  | .finite a, .finite b => a < b
  | .finite _, .inf => true
  | .finite _, _ => false
  | .ninf, .finite _ => true
  | .ninf, .inf => true
  | .ninf, _ => false
  | .inf, _ => false
  | .nan, _ => false

/-- Round-half-to-even of a rational to an integer (the rounding used by
Python's builtin `round`). -/
def roundHalfEven (q : ℚ) : ℤ :=
  let f := ⌊q⌋
  let r := q - (f : ℚ)
  if r < 1 / 2 then f
  else if 1 / 2 < r then f + 1
  else if f % 2 = 0 then f else f + 1

/-- Python `round(x, 1)` on a float: finite values are rounded half-to-even
to one decimal place (idealized over exact rationals); `round` with an
`ndigits` argument returns `inf`/`-inf`/`nan` unchanged. -/
def PyFloat.round1 : PyFloat → PyFloat
  | .finite q => .finite ((roundHalfEven (q * 10) : ℚ) / 10)
  | x => x

/-- Python `str.strip()` on a char list: drop whitespace at both ends
(restricted to ASCII whitespace, the only whitespace this program meets). -/
def stripChars (cs : List Char) : List Char :=
  ((cs.dropWhile Char.isWhitespace).reverse.dropWhile Char.isWhitespace).reverse

/-- Python `str.strip()`. -/
def pyStrip (s : String) : String := String.mk (stripChars s.data)

/-- Python `str.lower()` (restricted to ASCII letters, enough for the month
names this program looks up). -/
def pyLower (s : String) : String := String.mk (s.data.map Char.toLower)

/-- Model of `normalize_text` of `data_formatting.py`: lowercase + trim whitespace. -/
def normalize_text (text : String) : String := pyLower (pyStrip text)

/-- Value of a list of decimal digit characters. -/
def digitsVal (ds : List Char) : ℕ :=
  ds.foldl (fun a c => a * 10 + (c.toNat - 48)) 0

/-- Digit-string check: nonempty and all ASCII digits. -/
def allDigits (ds : List Char) : Bool := !ds.isEmpty && ds.all Char.isDigit

/-- Python `int(text)` on an already-stripped string: an optional sign
followed by a nonempty run of digits (ASCII digits; CPython's underscore
separators and Unicode digits are not modelled — no claim depends on them). -/
def parsePyInt (s : String) : Option Int :=
  match s.data with
  | '+' :: rest => if allDigits rest then some (digitsVal rest) else none
  | '-' :: rest => if allDigits rest then some (-(digitsVal rest : Int)) else none
  | cs => if allDigits cs then some (digitsVal cs) else none

/-- Exact value of a parsed decimal literal, `sign * mantissa * 10^exp /
10^fracLen` (built with `mkRat` directly so that it evaluates). -/
def decValue (sign : Int) (mantissa : ℕ) (fracLen : ℕ) (exp : Int) : ℚ :=
  if 0 ≤ exp then
    mkRat (sign * (mantissa * 10 ^ exp.toNat : ℕ)) (10 ^ fracLen)
  else
    mkRat (sign * mantissa) (10 ^ fracLen * 10 ^ (-exp).toNat)

/-- Parse the exponent tail of a float literal: either nothing, or
`e`/`E`, an optional sign and a nonempty run of digits. -/
def parseExpTail (cs : List Char) : Option Int :=
  match cs with
  | [] => some 0
  | e :: rest =>
    if e = 'e' ∨ e = 'E' then
      match rest with
      | '+' :: ds => if allDigits ds then some (digitsVal ds) else none
      | '-' :: ds => if allDigits ds then some (-(digitsVal ds : Int)) else none
      | ds => if allDigits ds then some (digitsVal ds) else none
    else none

/-- Parse an unsigned float literal `digits [. digits] [exponent]` with at
least one mantissa digit, returning its exact rational value. -/
def parseUnsignedFloat (sign : Int) (cs : List Char) : Option ℚ :=
  let ip := cs.takeWhile Char.isDigit
  let rest₁ := cs.dropWhile Char.isDigit
  let fpRest : Option (List Char × List Char) :=
    match rest₁ with
    | '.' :: r => some (r.takeWhile Char.isDigit, r.dropWhile Char.isDigit)
    | r => some ([], r)
  match fpRest with
  | some (fp, rest₂) =>
    if ip.isEmpty && fp.isEmpty then none
    else
      match parseExpTail rest₂ with
      | some e => some (decValue sign (digitsVal (ip ++ fp)) fp.length e)
      | none => none
  | none => none

/-- Python `float(text)` on an already-stripped string: optional sign, then
either the keywords `nan` / `inf` / `infinity` (case-insensitive) or a
decimal literal, whose value is idealized as an exact rational. -/
def parsePyFloat (s : String) : Option PyFloat :=
  let cs := s.data
  let signRest : Int × List Char :=
    match cs with
    | '+' :: r => (1, r)
    | '-' :: r => (-1, r)
    | r => (1, r)
  let sign := signRest.1
  let body := signRest.2
  let low := (body.map Char.toLower)
  if low = "nan".data then some .nan
  else if low = "inf".data ∨ low = "infinity".data then
    some (if sign = 1 then .inf else .ninf)
  else
    match parseUnsignedFloat sign body with
    | some q => some (.finite q)
    | none => none

/-! ## `data_formatting.py` -/

/-- Model of `month_to_number`: the `_MONTHS` lookup applied to the normalized text.
Full names, standard abbreviations (plus `sept`), and the numeric forms
`1..12` / `01..09`. -/
def month_to_number (month_text : String) : Option ℕ :=
  match normalize_text month_text with
  | "january" => some 1 | "jan" => some 1 | "1" => some 1 | "01" => some 1
  | "february" => some 2 | "feb" => some 2 | "2" => some 2 | "02" => some 2
  | "march" => some 3 | "mar" => some 3 | "3" => some 3 | "03" => some 3
  | "april" => some 4 | "apr" => some 4 | "4" => some 4 | "04" => some 4
  | "may" => some 5 | "5" => some 5 | "05" => some 5
  | "june" => some 6 | "jun" => some 6 | "6" => some 6 | "06" => some 6
  | "july" => some 7 | "jul" => some 7 | "7" => some 7 | "07" => some 7
  | "august" => some 8 | "aug" => some 8 | "8" => some 8 | "08" => some 8
  | "september" => some 9 | "sep" => some 9 | "sept" => some 9
  | "9" => some 9 | "09" => some 9
  | "october" => some 10 | "oct" => some 10 | "10" => some 10
  | "november" => some 11 | "nov" => some 11 | "11" => some 11
  | "december" => some 12 | "dec" => some 12 | "12" => some 12
  | _ => none

/-- Model of `hm_to_minutes`: convert hours + minutes text into total minutes;
if `require_any` and both fields are blank the input is invalid, otherwise a
blank field counts as 0; non-integer text is invalid. -/
def hm_to_minutes (hours_text minutes_text : String) (require_any : Bool) :
    Option Int :=
  let h_clean := pyStrip hours_text
  let m_clean := pyStrip minutes_text
  if require_any ∧ h_clean = "" ∧ m_clean = "" then none
  else
    let h_clean := if h_clean = "" then "0" else h_clean
    let m_clean := if m_clean = "" then "0" else m_clean
    match parsePyInt h_clean, parsePyInt m_clean with
    | some h, some m => some (h * 60 + m)
    | _, _ => none

/-- Python's `f"{n:0wd}"`: decimal rendering zero-padded to total width `w`
(the sign, if any, counts towards the width and precedes the padding). -/
def zfill (w : ℕ) (n : Int) : String :=
  let digits := toString n.natAbs
  let sign := if n < 0 then "-" else ""
  let pad := w - (digits.length + sign.length)
  sign ++ String.mk (List.replicate pad '0') ++ digits

/-- Model of `minutes_to_hhmm`: minutes to `"HH:MM"`, two digits each; Python's `//`
and `%` are floor division and floor-signed remainder, i.e. `fdiv`/`fmod`. -/
def minutes_to_hhmm (total_minutes : Int) : String :=
  let h := Int.fdiv total_minutes 60
  let m := Int.fmod total_minutes 60
  zfill 2 h ++ ":" ++ zfill 2 m

/-- Python `" ".join(parts)`. -/
def joinSpace : List String → String
  | [] => ""
  | [x] => x
  | x :: xs => x ++ " " ++ joinSpace xs

/-- Model of `minutes_to_human`: render minutes as human text, with full words or
abbreviated `h` / `min` units; zero components are omitted and `"0 minutes"` /
`"0min"` is produced when both are zero. -/
def minutes_to_human (total_minutes : Int) (abbreviated : Bool) : String :=
  let h := Int.fdiv total_minutes 60
  let m := Int.fmod total_minutes 60
  let parts : List String :=
    (if h > 0 then
      [if abbreviated then toString h ++ "h"
       else toString h ++ " " ++ (if h = 1 then "hour" else "hours")]
     else [])
    ++
    (if m > 0 then
      [if abbreviated then toString m ++ "min"
       else toString m ++ " " ++ (if m = 1 then "minute" else "minutes")]
     else [])
  if parts = [] then (if abbreviated then "0min" else "0 minutes")
  else joinSpace parts

/-! ## `data_validation.py` -/

/-- Model of `parse_int`: returns `(value, none)` on success and `(none, message)` on
blank or non-integer input, mirroring the `(Optional[int], Optional[str])`
pair of the source. -/
def parse_int (text : String) (field_name : String) :
    Option Int × Option String :=
  let cleaned := pyStrip text
  if cleaned = "" then (none, some (field_name ++ " is required."))
  else
    match parsePyInt cleaned with
    | some n => (some n, none)
    | none => (none, some (field_name ++ " must be a whole number."))

/-- Model of `parse_float`: like `parse_int` but for Python floats. -/
def parse_float (text : String) (field_name : String) :
    Option PyFloat × Option String :=
  let cleaned := pyStrip text
  if cleaned = "" then (none, some (field_name ++ " is required."))
  else
    match parsePyFloat cleaned with
    | some v => (some v, none)
    | none => (none, some (field_name ++ " must be a number (example: 7.5)."))

/-- Gregorian leap-year test, as used by `datetime`. -/
def isLeapYear (y : ℕ) : Bool :=
  y % 4 = 0 && (y % 100 ≠ 0 || y % 400 = 0)

/-- Days in a month of the proleptic Gregorian calendar. -/
def daysInMonth (y m : ℕ) : ℕ :=
  if m = 2 then (if isLeapYear y then 29 else 28)
  else if m = 4 ∨ m = 6 ∨ m = 9 ∨ m = 11 then 30
  else 31

/-- Model of `validate_iso_date`: `datetime.strptime(iso_date, "%Y-%m-%d")` succeeds
exactly when the text splits as `year-month-day` with 1–4, 1–2 and 1–2 digit
groups, `1 ≤ year ≤ 9999` (datetime's year range), a real month and a day
that exists in that month; any failure yields `"Invalid date."`. -/
def validate_iso_date (iso_date : String) : Option String :=
  let cs := iso_date.data
  let y := cs.takeWhile Char.isDigit
  let r₁ := cs.dropWhile Char.isDigit
  match r₁ with
  | '-' :: r₂ =>
    let mo := r₂.takeWhile Char.isDigit
    let r₃ := r₂.dropWhile Char.isDigit
    match r₃ with
    | '-' :: r₄ =>
      let d := r₄.takeWhile Char.isDigit
      let r₅ := r₄.dropWhile Char.isDigit
      if r₅ = [] ∧ 1 ≤ y.length ∧ y.length ≤ 4 ∧
          1 ≤ mo.length ∧ mo.length ≤ 2 ∧ 1 ≤ d.length ∧ d.length ≤ 2 ∧
          1 ≤ digitsVal y ∧ digitsVal y ≤ 9999 ∧
          1 ≤ digitsVal mo ∧ digitsVal mo ≤ 12 ∧
          1 ≤ digitsVal d ∧ digitsVal d ≤ daysInMonth (digitsVal y) (digitsVal mo)
      then none else some "Invalid date."
    | _ => some "Invalid date."
  | _ => some "Invalid date."

/-- Model of `validate_total_minutes`: 0..1440 minutes. -/
def validate_total_minutes (total_minutes : Int) (field_name : String) :
    Option String :=
  if total_minutes < 0 ∨ total_minutes > 1440 then
    some (field_name ++ " must be between 0 and 24 hours.")
  else none

/-- Model of `validate_mood_scale`: rejects when `mood_scale < 0.0 or mood_scale >
10.0` under Python float comparison (so `nan`, which compares false both
ways, is NOT rejected). -/
def validate_mood_scale (mood_scale : PyFloat) : Option String :=
  if PyFloat.lt mood_scale (.finite 0) || PyFloat.lt (.finite 10) mood_scale then
    some "Mood scale must be between 0.0 and 10.0."
  else none

/-- Model of `validate_required_text`: required text must be non-blank after trim. -/
def validate_required_text (text : String) (field_name : String) :
    Option String :=
  if pyStrip text = "" then some (field_name ++ " is required.") else none

/-- The sleep-time block of `create_daily_entry`: parse with
`require_any = true`, then range-check; at most one `sleep_time` error. -/
def sleep_time_error (hours_text minutes_text : String) : Option String :=
  match hm_to_minutes hours_text minutes_text true with
  | none => some "Sleep time must include hours or minutes (numbers only)."
  | some t => validate_total_minutes t "Sleep time"

/-- The exercise-time block of `create_daily_entry`. -/
def exercise_time_error (hours_text minutes_text : String) : Option String :=
  match hm_to_minutes hours_text minutes_text true with
  | none => some "Exercise time must include hours or minutes (numbers only)."
  | some t => validate_total_minutes t "Exercise time"

/-- The mood-scale block of `create_daily_entry`: a parse error wins,
otherwise the range check runs on the parsed value. -/
def mood_scale_error (mood_scale_text : String) : Option String :=
  let p := parse_float mood_scale_text "Mood scale"
  match p.2 with
  | some e => some e
  | none =>
    match p.1 with
    | some v => validate_mood_scale v
    | none => none

/-- The date block of `create_daily_entry`: only when day, year and month all
parsed does it build the zero-padded `YYYY-MM-DD` candidate and check it is a
real date; returns `(iso_date, date-error)`. -/
def date_block (dayVal : Option Int) (monthNum : Option ℕ) (yearVal : Option Int) :
    Option String × Option String :=
  match dayVal, monthNum, yearVal with
  | some d, some mo, some y =>
    let iso := zfill 4 y ++ "-" ++ zfill 2 mo ++ "-" ++ zfill 2 d
    match validate_iso_date iso with
    | some _ => (none, some "That date does not exist.")
    | none => (some iso, none)
  | _, _, _ => (none, none)

/-- One optional keyed error as a (possibly empty) association-list segment;
the segments are concatenated in the source's insertion order. -/
def errItem (key : String) : Option String → List (String × String)
  | none => []
  | some msg => [(key, msg)]

/-- The canonical valid entry built by `create_daily_entry`. -/
structure Entry where
  date : String
  sleep_minutes : Int
  exercise_minutes : Int
  mood_scale : PyFloat
  mood_tags : String
  activities : String
  notes : String
deriving DecidableEq, Repr

/-- Model of `create_daily_entry`: validate every field, collecting all errors keyed
by field in the source's insertion order, and build the canonical entry only
when no error occurred; the Python `{}` record is modelled as `none`. -/
def create_daily_entry
    (date_day_text date_month_text date_year_text
     sleep_hours_text sleep_minutes_text
     exercise_hours_text exercise_minutes_text
     mood_scale_text mood_tags_text activities_text notes_text : String) :
    Option Entry × List (String × String) :=
  let dayP := parse_int date_day_text "Day"
  let yearP := parse_int date_year_text "Year"
  let monthNum := month_to_number date_month_text
  let monthErr : Option String :=
    if monthNum = none then some "Month must be a real month (example: January)."
    else none
  let dateB := date_block dayP.1 monthNum yearP.1
  let sleepTotal := hm_to_minutes sleep_hours_text sleep_minutes_text true
  let exerciseTotal := hm_to_minutes exercise_hours_text exercise_minutes_text true
  let moodP := parse_float mood_scale_text "Mood scale"
  let errors : List (String × String) :=
    errItem "date_day" dayP.2 ++
    errItem "date_year" yearP.2 ++
    errItem "date_month" monthErr ++
    errItem "date" dateB.2 ++
    errItem "sleep_time" (sleep_time_error sleep_hours_text sleep_minutes_text) ++
    errItem "exercise_time"
      (exercise_time_error exercise_hours_text exercise_minutes_text) ++
    errItem "mood_scale" (mood_scale_error mood_scale_text) ++
    errItem "mood_tags" (validate_required_text mood_tags_text "Mood tags") ++
    errItem "activities" (validate_required_text activities_text "Activities")
  if errors = [] then
    match dateB.1, sleepTotal, exerciseTotal, moodP.1 with
    | some iso, some st, some et, some mv =>
      (some { date := iso, sleep_minutes := st, exercise_minutes := et,
              mood_scale := mv.round1,
              mood_tags := pyStrip mood_tags_text,
              activities := pyStrip activities_text,
              notes := pyStrip notes_text }, [])
    | _, _, _, _ => (none, [])
  else (none, errors)

/-- Rows ordered by date, the relation established by the sort. -/
def rowLe (a b : Row) : Prop := strLe a.date b.date = true

/-- The row whose date matched, rewritten with the entry. -/
def replaceByDate (e : Row) (r : Row) : Row := if r.date = e.date then e else r

/-! ## Lemmas about the lexicographic string order -/

theorem charsLe_eq_not_charsLt : ∀ a b : List Char, charsLe a b = !charsLt b a := by
  intro a
  induction a with
  | nil => intro b; cases b <;> simp [charsLe, charsLt]
  | cons x xs ih =>
    intro b
    cases b with
    | nil => simp [charsLe, charsLt]
    | cons y ys =>
      simp only [charsLe, charsLt]
      by_cases h₁ : x.toNat < y.toNat
      · have h₂ : ¬ y.toNat < x.toNat := by omega
        simp [h₁, h₂]
      · by_cases h₂ : y.toNat < x.toNat
        · simp [h₁, h₂]
        · simp [h₁, h₂, ih ys]

theorem charsLt_asymm : ∀ a b : List Char,
    charsLt a b = true → charsLt b a = false := by
  intro a
  induction a with
  | nil => intro b h; cases b <;> simp [charsLt]
  | cons x xs ih =>
    intro b h
    cases b with
    | nil => simp [charsLt] at h
    | cons y ys =>
      simp only [charsLt] at h ⊢
      by_cases h₁ : x.toNat < y.toNat
      · have h₂ : ¬ y.toNat < x.toNat := by omega
        simp [h₁, h₂]
      · by_cases h₂ : y.toNat < x.toNat
        · simp [h₁, h₂] at h
        · simp [h₁, h₂] at h ⊢
          exact ih ys h

theorem charsLe_trans : ∀ a b c : List Char,
    charsLe a b = true → charsLe b c = true → charsLe a c = true := by
  intro a
  induction a with
  | nil => intro b c _ _; cases c <;> simp [charsLe]
  | cons x xs ih =>
    intro b c hab hbc
    cases b with
    | nil => simp [charsLe] at hab
    | cons y ys =>
      cases c with
      | nil => simp [charsLe] at hbc
      | cons z zs =>
        simp only [charsLe] at hab hbc ⊢
        rcases Nat.lt_trichotomy x.toNat y.toNat with hxy | hxy | hxy
        · rcases Nat.lt_trichotomy y.toNat z.toNat with hyz | hyz | hyz
          · simp [show x.toNat < z.toNat from by omega]
          · simp [show x.toNat < z.toNat from by omega]
          · simp [show ¬ y.toNat < z.toNat from by omega, hyz] at hbc
        · rcases Nat.lt_trichotomy y.toNat z.toNat with hyz | hyz | hyz
          · simp [show x.toNat < z.toNat from by omega]
          · have hxz : ¬ x.toNat < z.toNat := by omega
            have hzx : ¬ z.toNat < x.toNat := by omega
            simp only [if_neg hxz, if_neg hzx]
            simp [show ¬ x.toNat < y.toNat from by omega,
                  show ¬ y.toNat < x.toNat from by omega] at hab
            simp [show ¬ y.toNat < z.toNat from by omega,
                  show ¬ z.toNat < y.toNat from by omega] at hbc
            exact ih ys zs hab hbc
          · simp [show ¬ y.toNat < z.toNat from by omega, hyz] at hbc
        · simp [show ¬ x.toNat < y.toNat from by omega, hxy] at hab

/-- Totality of the embedded string order. -/
theorem charsLe_total (a b : List Char) :
    charsLe a b = true ∨ charsLe b a = true := by
  rw [charsLe_eq_not_charsLt, charsLe_eq_not_charsLt]
  cases h : charsLt b a
  · left; rfl
  · right
    rw [charsLt_asymm b a h]
    rfl

theorem strLe_trans {a b c : String} (h₁ : strLe a b = true)
    (h₂ : strLe b c = true) : strLe a c = true :=
  charsLe_trans a.data b.data c.data h₁ h₂

theorem strLe_of_not_strLt {a b : String} (h : strLt a b = false) :
    strLe b a = true := by
  have h' : charsLt a.data b.data = false := h
  rw [strLe, charsLe_eq_not_charsLt, h']
  rfl

theorem strLe_of_strLt {a b : String} (h : strLt a b = true) :
    strLe a b = true := by
  rw [strLe, charsLe_eq_not_charsLt, charsLt_asymm a.data b.data h]
  rfl

/-! ## Lemmas about the sort and the upsert -/

theorem insertRow_perm (r : Row) : ∀ l : List Row, List.Perm (insertRow r l) (r :: l) := by
  intro l
  induction l with
  | nil => exact List.Perm.refl _
  | cons x xs ih =>
    simp only [insertRow]
    split
    · exact (ih.cons x).trans (List.Perm.swap r x xs)
    · exact List.Perm.refl _

theorem sortByDate_perm : ∀ l : List Row, List.Perm (sortByDate l) l := by
  intro l
  induction l with
  | nil => exact List.Perm.refl _
  | cons x xs ih => exact (insertRow_perm x (sortByDate xs)).trans (ih.cons x)

theorem insertRow_sorted (r : Row) :
    ∀ l : List Row, l.Pairwise rowLe → (insertRow r l).Pairwise rowLe := by
  intro l
  induction l with
  | nil => intro _; exact List.pairwise_singleton rowLe r
  | cons x xs ih =>
    intro h
    rcases List.pairwise_cons.mp h with ⟨hx, hxs⟩
    simp only [insertRow]
    by_cases hlt : strLt x.date r.date = true
    · rw [if_pos hlt]
      refine List.pairwise_cons.mpr ⟨?_, ih hxs⟩
      intro y hy
      rcases List.mem_cons.mp ((insertRow_perm r xs).mem_iff.mp hy) with hy' | hy'
      · subst hy'
        exact strLe_of_strLt hlt
      · exact hx y hy'
    · rw [if_neg hlt]
      have hlt' : strLt x.date r.date = false := Bool.eq_false_iff.mpr hlt
      refine List.pairwise_cons.mpr ⟨?_, h⟩
      intro y hy
      rcases List.mem_cons.mp hy with hy' | hy'
      · subst hy'
        exact strLe_of_not_strLt hlt'
      · exact strLe_trans (strLe_of_not_strLt hlt') (hx y hy')

theorem sortByDate_sorted : ∀ l : List Row, (sortByDate l).Pairwise rowLe := by
  intro l
  induction l with
  | nil => exact List.Pairwise.nil
  | cons x xs ih => exact insertRow_sorted x (sortByDate xs) ih

/-- The replacement pass is a pointwise map over the rows. -/
theorem upsertPass_fst (t : String) (e : Row) :
    ∀ rows : List Row,
      (upsertPass t e rows).1 = rows.map (fun r => if r.date = t then e else r) := by
  intro rows
  induction rows with
  | nil => rfl
  | cons x xs ih =>
    simp only [upsertPass, List.map_cons]
    split
    · simp_all
    · simp_all

/-- The action string records whether some row's date matched the target. -/
theorem upsertPass_snd (t : String) (e : Row) :
    ∀ rows : List Row,
      (upsertPass t e rows).2 =
        if ∃ r ∈ rows, r.date = t then "updated" else "inserted" := by
  intro rows
  induction rows with
  | nil => simp [upsertPass]
  | cons x xs ih =>
    simp only [upsertPass]
    by_cases hx : x.date = t
    · simp [hx]
    · simp only [if_neg hx, ih]
      by_cases hxs : ∃ r ∈ xs, r.date = t
      · rw [if_pos hxs, if_pos (by exact ⟨hxs.choose, .tail _ hxs.choose_spec.1, hxs.choose_spec.2⟩)]
      · rw [if_neg hxs, if_neg (by
          rintro ⟨r, hr, hrd⟩
          rcases List.mem_cons.mp hr with h | h
          · exact hx (h ▸ hrd)
          · exact hxs ⟨r, h, hrd⟩)]

theorem replaceByDate_date (e r : Row) : (replaceByDate e r).date = r.date := by
  unfold replaceByDate
  split
  · simp_all
  · rfl

theorem upsertEntry_snd (rows : List Row) (e : Row) :
    (upsertEntry rows e).2 =
      if ∃ r ∈ rows, r.date = e.date then "updated" else "inserted" := by
  have h : (upsertEntry rows e).2 = (upsertPass e.date e rows).2 := rfl
  rw [h, upsertPass_snd]

theorem upsertEntry_fst_eq (rows : List Row) (e : Row) :
    (upsertEntry rows e).1 =
      sortByDate (if (upsertPass e.date e rows).2 = "inserted"
        then (upsertPass e.date e rows).1 ++ [e]
        else (upsertPass e.date e rows).1) := rfl

theorem upsertEntry_fst_match (rows : List Row) (e : Row)
    (h : ∃ r ∈ rows, r.date = e.date) :
    List.Perm (upsertEntry rows e).1 (rows.map (replaceByDate e)) := by
  have hsnd : (upsertPass e.date e rows).2 = "updated" := by
    rw [upsertPass_snd]
    exact if_pos h
  rw [upsertEntry_fst_eq, hsnd, if_neg (by decide)]
  have hfst := upsertPass_fst e.date e rows
  rw [hfst]
  exact sortByDate_perm _

theorem upsertEntry_fst_nomatch (rows : List Row) (e : Row)
    (h : ¬ ∃ r ∈ rows, r.date = e.date) :
    List.Perm (upsertEntry rows e).1 (rows ++ [e]) := by
  have hsnd : (upsertPass e.date e rows).2 = "inserted" := by
    rw [upsertPass_snd]
    exact if_neg h
  rw [upsertEntry_fst_eq, hsnd, if_pos rfl]
  have hfst := upsertPass_fst e.date e rows
  have hid : rows.map (fun r => if r.date = e.date then e else r) = rows := by
    have := List.map_congr_left (l := rows)
      (f := fun r => if r.date = e.date then e else r) (g := id)
      (fun a ha => by
        have : ¬ a.date = e.date := fun hd => h ⟨a, ha, hd⟩
        simp [this])
    simpa using this
  rw [hfst, hid]
  exact sortByDate_perm _

/-- Dates stay pairwise distinct across one upsert. -/
theorem upsertEntry_datesDistinct (rows : List Row) (e : Row)
    (h : rows.Pairwise (fun a b => a.date ≠ b.date)) :
    (upsertEntry rows e).1.Pairwise (fun a b => a.date ≠ b.date) := by
  by_cases hm : ∃ r ∈ rows, r.date = e.date
  · have hperm := upsertEntry_fst_match rows e hm
    rw [hperm.pairwise_iff (fun hab => Ne.symm hab)]
    rw [List.pairwise_map]
    exact h.imp (fun hab => by
      rw [replaceByDate_date, replaceByDate_date]
      exact hab)
  · have hperm := upsertEntry_fst_nomatch rows e hm
    rw [hperm.pairwise_iff (fun hab => Ne.symm hab)]
    rw [List.pairwise_append]
    refine ⟨h, List.pairwise_singleton _ _, ?_⟩
    intro a ha b hb
    rw [List.mem_singleton.mp hb]
    exact fun hd => hm ⟨a, ha, hd⟩

theorem applyUpserts_datesDistinct_aux :
    ∀ (es : List Row) (store : List Row),
      store.Pairwise (fun a b => a.date ≠ b.date) →
      (es.foldl (fun st e => (upsertEntry st e).1) store).Pairwise
        (fun a b => a.date ≠ b.date) := by
  intro es
  induction es with
  | nil => intro store h; exact h
  | cons e es ih =>
    intro store h
    exact ih _ (upsertEntry_datesDistinct store e h)

theorem count_map_replace (rows : List Row) (e r : Row) (h : r.date ≠ e.date) :
    (rows.map (replaceByDate e)).count r = rows.count r := by
  induction rows with
  | nil => rfl
  | cons x xs ih =>
    by_cases hx : x.date = e.date
    · have h1 : replaceByDate e x = e := by simp [replaceByDate, hx]
      have hre : ¬ r = e := fun hq => h (by rw [hq])
      have hrx : ¬ r = x := fun hq => h (by rw [hq, hx])
      simp [h1, List.count_cons, ih, hre, hrx]
    · have h1 : replaceByDate e x = x := by simp [replaceByDate, hx]
      simp [h1, List.count_cons, ih]

theorem countP_map_replace (rows : List Row) (e : Row) :
    (rows.map (replaceByDate e)).countP (fun r => r.date == e.date) =
      rows.countP (fun r => r.date == e.date) := by
  rw [List.countP_map]
  refine List.countP_congr ?_
  intro x _
  simp only [Function.comp_apply, replaceByDate_date]

theorem count_entry_map_replace (rows : List Row) (e : Row) :
    (rows.map (replaceByDate e)).count e =
      rows.countP (fun r => r.date == e.date) := by
  induction rows with
  | nil => rfl
  | cons x xs ih =>
    by_cases hx : x.date = e.date
    · have h1 : replaceByDate e x = e := by simp [replaceByDate, hx]
      simp [h1, List.count_cons, List.countP_cons, hx, ih]
    · have h1 : replaceByDate e x = x := by simp [replaceByDate, hx]
      have hxe : ¬ x = e := fun hq => hx (by rw [hq])
      simp [h1, List.count_cons, List.countP_cons, hx, hxe, ih]

theorem mem_map_replace_eq_entry (rows : List Row) (e r : Row)
    (hr : r ∈ rows.map (replaceByDate e)) (hd : r.date = e.date) : r = e := by
  rcases List.mem_map.mp hr with ⟨x, hx, hfx⟩
  by_cases hxd : x.date = e.date
  · rw [← hfx]
    simp [replaceByDate, hxd]
  · rw [← hfx] at hd
    exact absurd (replaceByDate_date e x ▸ hd) hxd

/-! ## Claims -/

/-- C1 (Upsert uniqueness): any sequence of upserts starting from the empty
store yields a store with pairwise distinct dates, and upserting two entries
with the same date into the empty store leaves exactly the second entry. -/
theorem upsert_uniqueness :
    (∀ entries : List Row,
      (applyUpserts entries).Pairwise (fun a b => a.date ≠ b.date)) ∧
    (∀ e₁ e₂ : Row, e₁.date = e₂.date →
      (upsertEntry (upsertEntry [] e₁).1 e₂).1 = [e₂]) := by
  constructor
  · intro entries
    exact applyUpserts_datesDistinct_aux entries [] List.Pairwise.nil
  · intro e₁ e₂ h
    have h1 : (upsertEntry [] e₁).1 = [e₁] := rfl
    rw [h1]
    have hpass : upsertPass e₂.date e₂ [e₁] = ([e₂], "updated") := by
      simp [upsertPass, h]
    rw [upsertEntry_fst_eq, hpass]
    rfl

/-- Witness for C1 at two concrete entries sharing the date 2024-06-15. -/
theorem upsert_uniqueness_witness :
    (upsertEntry (upsertEntry []
        ⟨"2024-06-15", "450", "45", "8.0", "happy", "jogging", ""⟩).1
        ⟨"2024-06-15", "480", "30", "6.5", "calm", "reading", ""⟩).1 =
      [⟨"2024-06-15", "480", "30", "6.5", "calm", "reading", ""⟩] :=
  upsert_uniqueness.2 _ _ rfl

/-- C2 (Sort invariant): after any single upsert on any store the rows are in
non-decreasing lexicographic order of their `date` field. -/
theorem sort_invariant (rows : List Row) (e : Row) :
    (upsertEntry rows e).1.Pairwise (fun a b => strLe a.date b.date = true) :=
  sortByDate_sorted _

/-- C3 (Upsert result value): the action is `"updated"` exactly when some
existing row's date equals the entry's date, in which case the new store is
(a reordering of) the old rows with every matching row replaced by the entry;
otherwise the action is `"inserted"` and the entry was appended. -/
theorem upsert_result_value (rows : List Row) (e : Row) :
    ((upsertEntry rows e).2 = "updated" ↔ ∃ r ∈ rows, r.date = e.date) ∧
    ((∃ r ∈ rows, r.date = e.date) →
      List.Perm (upsertEntry rows e).1 (rows.map (replaceByDate e))) ∧
    ((¬ ∃ r ∈ rows, r.date = e.date) →
      (upsertEntry rows e).2 = "inserted" ∧
      List.Perm (upsertEntry rows e).1 (rows ++ [e])) := by
  refine ⟨?_, upsertEntry_fst_match rows e,
    fun h => ⟨?_, upsertEntry_fst_nomatch rows e h⟩⟩
  · rw [upsertEntry_snd]
    by_cases h : ∃ r ∈ rows, r.date = e.date
    · simp [h]
    · simp [h]
  · rw [upsertEntry_snd, if_neg h]

/-- Witness for C3: inserting a new date into a one-row store. -/
theorem upsert_result_value_witness :
    (upsertEntry [⟨"2024-06-14", "400", "20", "5.0", "ok", "walk", ""⟩]
        ⟨"2024-06-15", "450", "45", "8.0", "happy", "jogging", ""⟩).2 =
      "inserted" ∧
    List.Perm
      (upsertEntry [⟨"2024-06-14", "400", "20", "5.0", "ok", "walk", ""⟩]
        ⟨"2024-06-15", "450", "45", "8.0", "happy", "jogging", ""⟩).1
      ([⟨"2024-06-14", "400", "20", "5.0", "ok", "walk", ""⟩] ++
        [⟨"2024-06-15", "450", "45", "8.0", "happy", "jogging", ""⟩]) :=
  (upsert_result_value _ _).2.2 (by decide)

/-- C9 (Frame property): a row whose date differs from the entry's date keeps
its exact multiplicity across the upsert (in particular it is never dropped,
whatever its date text looks like), and the upsert never shrinks the store. -/
theorem upsert_frame (rows : List Row) (e : Row) :
    (∀ r : Row, r.date ≠ e.date →
      (upsertEntry rows e).1.count r = rows.count r) ∧
    rows.length ≤ (upsertEntry rows e).1.length := by
  by_cases hm : ∃ r ∈ rows, r.date = e.date
  · have hperm := upsertEntry_fst_match rows e hm
    constructor
    · intro r hr
      rw [hperm.count_eq r]
      exact count_map_replace rows e r hr
    · rw [hperm.length_eq, List.length_map]
  · have hperm := upsertEntry_fst_nomatch rows e hm
    constructor
    · intro r hr
      rw [hperm.count_eq r, List.count_append]
      have hre : ¬ r = e := fun hq => hr (by rw [hq])
      simp [List.count_cons, hre]
    · rw [hperm.length_eq, List.length_append]
      omega

/-- Witness for C9: the non-matching (and date-malformed) row `"not-a-date"`
survives an upsert with multiplicity one. -/
theorem upsert_frame_witness :
    (upsertEntry [⟨"not-a-date", "400", "20", "5.0", "ok", "walk", ""⟩]
        ⟨"2024-06-15", "450", "45", "8.0", "happy", "jogging", ""⟩).1.count
      (⟨"not-a-date", "400", "20", "5.0", "ok", "walk", ""⟩ : Row) =
    List.count (⟨"not-a-date", "400", "20", "5.0", "ok", "walk", ""⟩ : Row)
      [⟨"not-a-date", "400", "20", "5.0", "ok", "walk", ""⟩] :=
  (upsert_frame _ _).1 _ (by decide)

/-- C10 (Implicit duplicate-date behavior): when the store already holds
`k ≥ 2` rows with the entry's date, the upsert reports `"updated"`, the store
still holds exactly `k` rows with that date afterwards, all of them copies of
the entry — uniqueness is not re-established. -/
theorem upsert_duplicate_dates (rows : List Row) (e : Row)
    (h : 2 ≤ rows.countP (fun r => r.date == e.date)) :
    (upsertEntry rows e).2 = "updated" ∧
    (upsertEntry rows e).1.countP (fun r => r.date == e.date) =
      rows.countP (fun r => r.date == e.date) ∧
    (upsertEntry rows e).1.count e =
      rows.countP (fun r => r.date == e.date) ∧
    ∀ r ∈ (upsertEntry rows e).1, r.date = e.date → r = e := by
  have hm : ∃ r ∈ rows, r.date = e.date := by
    by_contra hno
    have h0 : rows.countP (fun r => r.date == e.date) = 0 := by
      refine List.countP_eq_zero.mpr ?_
      intro a ha
      simp only [beq_iff_eq]
      exact fun hd => hno ⟨a, ha, hd⟩
    omega
  have hperm := upsertEntry_fst_match rows e hm
  refine ⟨(upsertEntry_snd rows e).trans (if_pos hm), ?_, ?_, ?_⟩
  · rw [hperm.countP_eq]
    exact countP_map_replace rows e
  · rw [hperm.count_eq]
    exact count_entry_map_replace rows e
  · intro r hr hd
    exact mem_map_replace_eq_entry rows e r (hperm.mem_iff.mp hr) hd

/-- Witness for C10: a hand-made store with two rows for 2024-06-15. -/
theorem upsert_duplicate_dates_witness :
    (upsertEntry
        [⟨"2024-06-15", "400", "20", "5.0", "ok", "walk", ""⟩,
         ⟨"2024-06-15", "480", "30", "6.5", "calm", "reading", ""⟩]
        ⟨"2024-06-15", "450", "45", "8.0", "happy", "jogging", ""⟩).2 =
      "updated" ∧
    (upsertEntry
        [⟨"2024-06-15", "400", "20", "5.0", "ok", "walk", ""⟩,
         ⟨"2024-06-15", "480", "30", "6.5", "calm", "reading", ""⟩]
        ⟨"2024-06-15", "450", "45", "8.0", "happy", "jogging", ""⟩).1.countP
        (fun r : Row => r.date == "2024-06-15") =
      List.countP (fun r : Row => r.date == "2024-06-15")
        [⟨"2024-06-15", "400", "20", "5.0", "ok", "walk", ""⟩,
         ⟨"2024-06-15", "480", "30", "6.5", "calm", "reading", ""⟩] ∧
    (upsertEntry
        [⟨"2024-06-15", "400", "20", "5.0", "ok", "walk", ""⟩,
         ⟨"2024-06-15", "480", "30", "6.5", "calm", "reading", ""⟩]
        ⟨"2024-06-15", "450", "45", "8.0", "happy", "jogging", ""⟩).1.count
        (⟨"2024-06-15", "450", "45", "8.0", "happy", "jogging", ""⟩ : Row) =
      List.countP (fun r : Row => r.date == "2024-06-15")
        [⟨"2024-06-15", "400", "20", "5.0", "ok", "walk", ""⟩,
         ⟨"2024-06-15", "480", "30", "6.5", "calm", "reading", ""⟩] ∧
    ∀ r ∈ (upsertEntry
        [⟨"2024-06-15", "400", "20", "5.0", "ok", "walk", ""⟩,
         ⟨"2024-06-15", "480", "30", "6.5", "calm", "reading", ""⟩]
        ⟨"2024-06-15", "450", "45", "8.0", "happy", "jogging", ""⟩).1,
      r.date = "2024-06-15" →
        r = ⟨"2024-06-15", "450", "45", "8.0", "happy", "jogging", ""⟩ :=
  upsert_duplicate_dates _ _ (by decide)

/-- C7 counterexample: at 125 minutes the abbreviated rendering is
`"2h 5min"`, not `"2h 5m"` as the claim's format says. -/
theorem minutes_to_human_abbrev_counterexample :
    minutes_to_human 125 true = "2h 5min" ∧
    minutes_to_human 125 true ≠ "2h 5m" := by
  decide

/-- C7 amended: for non-negative minutes the abbreviated rendering uses the
unit texts `h` and `min` (so `"2h 5min"`), renders `"0min"` when both
components are zero and omits a zero component. -/
theorem minutes_to_human_abbrev_amended (t : Int) (ht : 0 ≤ t) :
    (0 < Int.fdiv t 60 → 0 < Int.fmod t 60 →
      minutes_to_human t true =
        toString (Int.fdiv t 60) ++ "h " ++ toString (Int.fmod t 60) ++ "min") ∧
    (Int.fdiv t 60 = 0 → Int.fmod t 60 = 0 →
      minutes_to_human t true = "0min") ∧
    (0 < Int.fdiv t 60 → Int.fmod t 60 = 0 →
      minutes_to_human t true = toString (Int.fdiv t 60) ++ "h") ∧
    (Int.fdiv t 60 = 0 → 0 < Int.fmod t 60 →
      minutes_to_human t true = toString (Int.fmod t 60) ++ "min") := by
  refine ⟨fun h1 h2 => ?_, fun h1 h2 => ?_, fun h1 h2 => ?_, fun h1 h2 => ?_⟩
  · simp only [minutes_to_human, if_pos h1, if_pos h2]
    simp [joinSpace, String.append_assoc]
  · simp [minutes_to_human, h1, h2]
  · simp [minutes_to_human, h1, h2, joinSpace]
  · simp [minutes_to_human, h1, h2, joinSpace]

/-- Witness for the amended C7 at 125 minutes. -/
theorem minutes_to_human_abbrev_amended_witness :
    minutes_to_human 125 true = "2h 5min" := by
  have h := (minutes_to_human_abbrev_amended 125 (by decide)).1
    (by decide) (by decide)
  exact h.trans (by decide)

/-- C8 (Round-trip of minutes formatting): integer hour and minute texts in
range give `h*60 + m` total minutes, and `minutes_to_hhmm` renders that total
as the zero-padded clock text built from `h` and `m`. -/
theorem minutes_roundtrip (hours_text minutes_text : String)
    (require_any : Bool) (h m : Int)
    (hh : parsePyInt (pyStrip hours_text) = some h)
    (hm : parsePyInt (pyStrip minutes_text) = some m)
    (h0 : 0 ≤ h) (h24 : h ≤ 24) (m0 : 0 ≤ m) (m59 : m ≤ 59) :
    hm_to_minutes hours_text minutes_text require_any = some (h * 60 + m) ∧
    minutes_to_hhmm (h * 60 + m) = zfill 2 h ++ ":" ++ zfill 2 m := by
  have hpe : parsePyInt "" = none := rfl
  have hne : pyStrip hours_text ≠ "" := by
    intro he
    rw [he, hpe] at hh
    exact Option.noConfusion hh
  have mne : pyStrip minutes_text ≠ "" := by
    intro he
    rw [he, hpe] at hm
    exact Option.noConfusion hm
  constructor
  · simp only [hm_to_minutes]
    rw [if_neg (fun hc => hne hc.2.1), if_neg hne, if_neg mne, hh, hm]
  · have hd : Int.fdiv (h * 60 + m) 60 = h := by
      rw [Int.fdiv_eq_ediv _ (by norm_num)]
      omega
    have hmod : Int.fmod (h * 60 + m) 60 = m := by
      rw [Int.fmod_eq_emod _ (by norm_num)]
      omega
    simp only [minutes_to_hhmm]
    rw [hd, hmod]

/-- Witness for C8: hours "2", minutes "5" give 125, rendered "02:05". -/
theorem minutes_roundtrip_witness :
    hm_to_minutes "2" "5" true = some 125 ∧ minutes_to_hhmm 125 = "02:05" := by
  have h := minutes_roundtrip "2" "5" true 2 5 (by decide) (by decide)
    (by decide) (by decide) (by decide) (by decide)
  have h125 : (2 * 60 + 5 : Int) = 125 := by decide
  rw [h125] at h
  exact ⟨h.1, h.2.trans (by decide)⟩

theorem parse_int_cases (t f : String) :
    (∃ msg, parse_int t f = (none, some msg)) ∨
    (∃ n, parse_int t f = (some n, none)) := by
  unfold parse_int
  by_cases hc : pyStrip t = ""
  · rw [if_pos hc]
    exact Or.inl ⟨_, rfl⟩
  · rw [if_neg hc]
    cases hp : parsePyInt (pyStrip t) with
    | none => exact Or.inl ⟨_, rfl⟩
    | some n => exact Or.inr ⟨n, rfl⟩

/-- C4 (All errors collected): an invalid day, an invalid (or out-of-range)
mood scale and a blank activities field, with everything else valid, produce
an empty record and an error map whose keys are exactly `date_day`,
`mood_scale` and `activities`. -/
theorem all_errors_collected
    (date_day_text date_month_text date_year_text
     sleep_hours_text sleep_minutes_text
     exercise_hours_text exercise_minutes_text
     mood_scale_text mood_tags_text activities_text notes_text : String)
    (hday : (parse_int date_day_text "Day").1 = none)
    (hyear : (parse_int date_year_text "Year").2 = none)
    (hmonth : month_to_number date_month_text ≠ none)
    (hsleep : sleep_time_error sleep_hours_text sleep_minutes_text = none)
    (hex : exercise_time_error exercise_hours_text exercise_minutes_text = none)
    (hmood : mood_scale_error mood_scale_text ≠ none)
    (htags : validate_required_text mood_tags_text "Mood tags" = none)
    (hact : pyStrip activities_text = "") :
    (create_daily_entry date_day_text date_month_text date_year_text
        sleep_hours_text sleep_minutes_text exercise_hours_text
        exercise_minutes_text mood_scale_text mood_tags_text activities_text
        notes_text).1 = none ∧
    (create_daily_entry date_day_text date_month_text date_year_text
        sleep_hours_text sleep_minutes_text exercise_hours_text
        exercise_minutes_text mood_scale_text mood_tags_text activities_text
        notes_text).2.map Prod.fst =
      ["date_day", "mood_scale", "activities"] := by
  obtain ⟨dmsg, hdayeq⟩ : ∃ msg, parse_int date_day_text "Day" = (none, some msg) := by
    rcases parse_int_cases date_day_text "Day" with ⟨msg, hmsg⟩ | ⟨n, hn⟩
    · exact ⟨msg, hmsg⟩
    · rw [hn] at hday
      exact absurd hday (by simp)
  obtain ⟨y, hyeareq⟩ : ∃ n, parse_int date_year_text "Year" = (some n, none) := by
    rcases parse_int_cases date_year_text "Year" with ⟨msg, hmsg⟩ | ⟨n, hn⟩
    · rw [hmsg] at hyear
      exact absurd hyear (by simp)
    · exact ⟨n, hn⟩
  obtain ⟨mo, hmo⟩ := Option.ne_none_iff_exists'.mp hmonth
  obtain ⟨mmsg, hmoodeq⟩ := Option.ne_none_iff_exists'.mp hmood
  have hacte : validate_required_text activities_text "Activities" =
      some "Activities is required." := by
    unfold validate_required_text
    rw [if_pos hact]
    rfl
  simp only [create_daily_entry, hdayeq, hyeareq, hmo, hsleep, hex, hmoodeq,
    htags, hacte]
  simp [errItem, date_block]

/-- Witness for C4: day "x", mood "abc", blank activities, everything else
valid. -/
theorem all_errors_collected_witness :
    (create_daily_entry "x" "June" "2024" "7" "30" "0" "45" "abc" "happy"
        "  " "").1 = none ∧
    (create_daily_entry "x" "June" "2024" "7" "30" "0" "45" "abc" "happy"
        "  " "").2.map Prod.fst = ["date_day", "mood_scale", "activities"] :=
  all_errors_collected "x" "June" "2024" "7" "30" "0" "45" "abc" "happy"
    "  " "" (by decide) (by decide) (by decide) (by decide) (by decide)
    (by decide) (by decide) (by decide)

/-- C5 (Nonexistent calendar date rejected): day "31", month "February",
year "2023" with all other fields valid yields an empty record and an error
map containing `date` with "That date does not exist." and none of the keys
`date_day`, `date_month`, `date_year`. -/
theorem invalid_date_rejected
    (sleep_hours_text sleep_minutes_text exercise_hours_text
     exercise_minutes_text mood_scale_text mood_tags_text activities_text
     notes_text : String)
    (hsleep : sleep_time_error sleep_hours_text sleep_minutes_text = none)
    (hex : exercise_time_error exercise_hours_text exercise_minutes_text = none)
    (hmood : mood_scale_error mood_scale_text = none)
    (htags : validate_required_text mood_tags_text "Mood tags" = none)
    (hact : validate_required_text activities_text "Activities" = none) :
    ∃ errs, create_daily_entry "31" "February" "2023" sleep_hours_text
        sleep_minutes_text exercise_hours_text exercise_minutes_text
        mood_scale_text mood_tags_text activities_text notes_text =
      (none, errs) ∧
    ("date", "That date does not exist.") ∈ errs ∧
    "date_day" ∉ errs.map Prod.fst ∧
    "date_month" ∉ errs.map Prod.fst ∧
    "date_year" ∉ errs.map Prod.fst := by
  refine ⟨[("date", "That date does not exist.")], ?_, by simp, by simp,
    by simp, by simp⟩
  have hday : parse_int "31" "Day" = (some 31, none) := by decide
  have hyr : parse_int "2023" "Year" = (some 2023, none) := by decide
  have hmon : month_to_number "February" = some 2 := by decide
  have hdb : date_block (some 31) (some 2) (some 2023) =
      (none, some "That date does not exist.") := by decide
  simp only [create_daily_entry, hday, hyr, hmon, hdb, hsleep, hex, hmood,
    htags, hact]
  simp [errItem]

/-- Witness for C5 with concrete valid values for the other fields. -/
theorem invalid_date_rejected_witness :
    ∃ errs, create_daily_entry "31" "February" "2023" "7" "30" "0" "45"
        "8.0" "happy" "jogging" "" = (none, errs) ∧
    ("date", "That date does not exist.") ∈ errs ∧
    "date_day" ∉ errs.map Prod.fst ∧
    "date_month" ∉ errs.map Prod.fst ∧
    "date_year" ∉ errs.map Prod.fst :=
  invalid_date_rejected "7" "30" "0" "45" "8.0" "happy" "jogging" ""
    (by decide) (by decide) (by decide) (by decide) (by decide)

/-- C6, the code's behaviour at the failing input: the mood text "nan"
parses as a float, passes the range check (both comparisons are false for
NaN), and `create_daily_entry` returns a successful entry whose `mood_scale`
is NaN — which is not a finite value in [0, 10], contradicting the claimed
range postcondition. -/
theorem mood_scale_nan_bug :
    ∃ e : Entry,
      create_daily_entry "15" "June" "2024" "7" "30" "0" "45" "nan" "happy"
          "jogging" "" = (some e, []) ∧
      e.mood_scale = PyFloat.nan ∧
      ¬ ∃ q : ℚ, e.mood_scale = PyFloat.finite q ∧ 0 ≤ q ∧ q ≤ 10 := by
  refine ⟨⟨"2024-06-15", 450, 45, PyFloat.nan, "happy", "jogging", ""⟩,
    by decide, rfl, ?_⟩
  rintro ⟨q, hq, -, -⟩
  exact PyFloat.noConfusion hq
